import Mathlib

/-!
Verification of the Table Layout Metrics Engine (iceberg-diag).

This file shallowly embeds the metric computation code of the repository
(`icebergdiag/metrics/table_metrics.py`, `icebergdiag/metrics/table_metric.py`,
`icebergdiag/metrics/table.py`, `icebergdiag/diagnostics/response.py`) and
proves or refutes the frozen claims about it.  Python ints are modelled as
`Nat`/`Int`, Python numbers (which may become floats through division) as `ℚ`,
Python `None` as `Option.none`, and a Python runtime exception as an `Option`
result `none`.  Python strings that the claims reason about character-wise are
modelled as `List Char`.
-/

namespace IcebergDiag

/-- `FETCH_SIZE = 32 * 1024 * 1024` from `table_metrics.py`. -/
def FETCH_SIZE : ℕ := 32 * 1024 * 1024

/-- `MAX_GROUP_BYTE_SIZE = 750 * 1024 * 1024` from `table_metrics.py`. -/
def MAX_GROUP_BYTE_SIZE : ℕ := 750 * 1024 * 1024

/-- `MILLISECONDS_PER_SCAN = 1` from `table_metrics.py`. -/
def MILLISECONDS_PER_SCAN : ℕ := 1

/-- `MetricsCalculator.calc_read_file_cost`: `bytes_size // FETCH_SIZE + 2`. -/
def calc_read_file_cost (bytes_size : ℕ) : ℕ :=
  bytes_size / FETCH_SIZE + 2

/-- One step of the `for file_size in sorted_sizes` loop body of
`MetricsCalculator.build_partition_groups`.  State is
`(result, current_group, current_size_bytes)`. -/
def buildGroupsStep (max_bytes_per_group : ℕ)
    (st : List (List ℕ) × List ℕ × ℕ) (file_size : ℕ) :
    List (List ℕ) × List ℕ × ℕ :=
  let (result, current_group, current_size_bytes) :=
    if max_bytes_per_group < st.2.2 then (st.1 ++ [st.2.1], [], 0) else st
  (result, current_group ++ [file_size], current_size_bytes + file_size)

/-- The `if current_group: result.append(current_group)` flush after the loop
of `MetricsCalculator.build_partition_groups`. -/
def flushGroups (st : List (List ℕ) × List ℕ × ℕ) : List (List ℕ) :=
  if st.2.1 = [] then st.1 else st.1 ++ [st.2.1]

/-- `MetricsCalculator.build_partition_groups`: sort ascending, run the loop,
flush the final non-empty group. -/
def build_partition_groups (partition_files_sizes : List ℕ)
    (max_bytes_per_group : ℕ) : List (List ℕ) :=
  let sorted_sizes := List.insertionSort (· ≤ ·) partition_files_sizes
  flushGroups (sorted_sizes.foldl (buildGroupsStep max_bytes_per_group) ([], [], 0))

/-- Written from the spec's words (§4.3 BinPacker), as the reference algorithm
for the refinement claim: scan the ascending sizes, and before appending the
next size close the current group exactly when the running total already
strictly exceeds the bound; flush the final non-empty group. -/
def binPackSpecGo (maxGroupBytes : ℕ) :
    List ℕ → List ℕ → ℕ → List (List ℕ)
  | [], cur, _ => if cur = [] then [] else [cur]
  | s :: rest, cur, tot =>
    if maxGroupBytes < tot then cur :: binPackSpecGo maxGroupBytes rest [s] s
    else binPackSpecGo maxGroupBytes rest (cur ++ [s]) (tot + s)

/-- Written from the spec's words (§4.3 BinPacker): the reference bin-packing
algorithm, sorting ascending first. -/
def binPackSpec (sizes : List ℕ) (maxGroupBytes : ℕ) : List (List ℕ) :=
  binPackSpecGo maxGroupBytes (List.insertionSort (· ≤ ·) sizes) [] 0

theorem buildGroups_loop_eq_go (maxB : ℕ) :
    ∀ (l : List ℕ) (res : List (List ℕ)) (cur : List ℕ) (tot : ℕ),
      flushGroups (l.foldl (buildGroupsStep maxB) (res, cur, tot)) =
      res ++ binPackSpecGo maxB l cur tot := by
  intro l
  induction l with
  | nil =>
    intro res cur tot
    simp only [List.foldl_nil, binPackSpecGo, flushGroups]
    by_cases h : cur = [] <;> simp [h]
  | cons s rest ih =>
    intro res cur tot
    simp only [List.foldl_cons, binPackSpecGo, buildGroupsStep]
    by_cases h : maxB < tot
    · simp only [h, if_true]
      rw [ih (res ++ [cur]) ([] ++ [s]) (0 + s)]
      simp
    · simp only [h, if_false]
      exact ih res (cur ++ [s]) (tot + s)

theorem build_partition_groups_eq_go (sizes : List ℕ) (maxB : ℕ) :
    build_partition_groups sizes maxB =
      binPackSpecGo maxB (List.insertionSort (· ≤ ·) sizes) [] 0 := by
  have h := buildGroups_loop_eq_go maxB (List.insertionSort (· ≤ ·) sizes) [] [] 0
  simpa [build_partition_groups] using h

theorem binPackSpecGo_flatten (maxB : ℕ) :
    ∀ (l : List ℕ) (cur : List ℕ) (tot : ℕ),
      (binPackSpecGo maxB l cur tot).flatten = cur ++ l := by
  intro l
  induction l with
  | nil =>
    intro cur tot
    by_cases h : cur = [] <;> simp [binPackSpecGo, h]
  | cons s rest ih =>
    intro cur tot
    by_cases h : maxB < tot <;> simp [binPackSpecGo, h, ih]

/-- Python `str.split(sep)` for a one-character separator, on the
character-list model of strings: `'a.b'.split('.') == ['a','b']`,
`''.split('.') == ['']`. -/
def splitOnChar (c : Char) : List Char → List (List Char)
  | [] => [[]]
  | x :: xs =>
    if x = c then [] :: splitOnChar c xs
    else
      match splitOnChar c xs with
      | [] => [[x]]
      | g :: gs => (x :: g) :: gs

/-- Python `str.split(sep, maxsplit=1)` for a one-character separator:
split only at the first occurrence. -/
def splitOnceChar (c : Char) : List Char → List (List Char)
  | [] => [[]]
  | x :: xs =>
    if x = c then [[], xs]
    else
      match splitOnceChar c xs with
      | [] => [[x]]
      | g :: gs => (x :: g) :: gs

/-- Python `str.strip()`: drop leading and trailing whitespace. -/
def pyStrip (s : List Char) : List Char :=
  ((s.dropWhile Char.isWhitespace).reverse.dropWhile Char.isWhitespace).reverse

/-- `Table` from `metrics/table.py`: a database name and a table name. -/
structure Table where
  database : List Char
  table_name : List Char
deriving DecidableEq, Repr

/-- `Table.from_full_name`: strip, split at the first dot (`maxsplit=1`);
two parts become `(database, table_name)`, otherwise the database is empty and
the table name is the (unstripped) input. -/
def Table.from_full_name (full_table_name : List Char) : Table :=
  match splitOnceChar '.' (pyStrip full_table_name) with
  | [db, t] => ⟨db, t⟩
  | _ => ⟨[], full_table_name⟩

/-- The table-identifier resolution performed by `parse_response`
(`diagnostics/response.py` line 71): `Table(*res["table.name"].split("."))`.
The starred call succeeds only when the split yields exactly two parts
(exactly one dot); any other arity raises a `TypeError`, modelled as `none`. -/
def resolveTableName (s : List Char) : Option Table :=
  match splitOnChar '.' s with
  | [db, t] => some ⟨db, t⟩
  | _ => none

theorem splitOnChar_of_not_mem {c : Char} :
    ∀ {s : List Char}, c ∉ s → splitOnChar c s = [s] := by
  intro s
  induction s with
  | nil => intro _; rfl
  | cons x xs ih =>
    intro h
    have hx : ¬ x = c := fun hxc => h (by simp [hxc])
    have hxs : c ∉ xs := fun hm => h (List.mem_cons_of_mem _ hm)
    simp [splitOnChar, hx, ih hxs]

theorem splitOnceChar_of_not_mem {c : Char} :
    ∀ {s : List Char}, c ∉ s → splitOnceChar c s = [s] := by
  intro s
  induction s with
  | nil => intro _; rfl
  | cons x xs ih =>
    intro h
    have hx : ¬ x = c := fun hxc => h (by simp [hxc])
    have hxs : c ∉ xs := fun hm => h (List.mem_cons_of_mem _ hm)
    simp [splitOnceChar, hx, ih hxs]

theorem splitOnChar_append_sep {c : Char} :
    ∀ {a : List Char} (b : List Char), c ∉ a →
      splitOnChar c (a ++ c :: b) = a :: splitOnChar c b := by
  intro a
  induction a with
  | nil => intro b _; simp [splitOnChar]
  | cons x xs ih =>
    intro b h
    have hx : ¬ x = c := fun hxc => h (by simp [hxc])
    have hxs : c ∉ xs := fun hm => h (List.mem_cons_of_mem _ hm)
    simp [splitOnChar, hx, ih b hxs]

theorem not_mem_pyStrip {c : Char} {s : List Char} (h : c ∉ s) :
    c ∉ pyStrip s := by
  intro hm
  apply h
  have h1 := List.mem_reverse.mp hm
  have h2 := (List.dropWhile_sublist (l := (s.dropWhile Char.isWhitespace).reverse)
    (p := Char.isWhitespace)).mem h1
  have h3 := List.mem_reverse.mp h2
  exact (List.dropWhile_sublist (l := s) (p := Char.isWhitespace)).mem h3

/-- `MetricName` from `metrics/table_metric.py`, in declaration order. -/
inductive MetricName where
  | FULL_SCAN_OVERHEAD
  | WORST_SCAN_OVERHEAD
  | FILE_COUNT
  | WORST_FILE_COUNT
  | AVG_FILE_SIZE
  | WORST_AVG_FILE_SIZE
  | TOTAL_TABLE_SIZE
  | LARGEST_PARTITION_SIZE
  | TOTAL_PARTITIONS
deriving DecidableEq, Repr

/-- The `_order` field of `OrderedEnum` (`utils.py`): the declaration index,
used by `__lt__` and hence by `sorted(..., key=lambda x: x.name)`. -/
def MetricName.rank : MetricName → ℕ
  | .FULL_SCAN_OVERHEAD => 0
  | .WORST_SCAN_OVERHEAD => 1
  | .FILE_COUNT => 2
  | .WORST_FILE_COUNT => 3
  | .AVG_FILE_SIZE => 4
  | .WORST_AVG_FILE_SIZE => 5
  | .TOTAL_TABLE_SIZE => 6
  | .LARGEST_PARTITION_SIZE => 7
  | .TOTAL_PARTITIONS => 8

/-- The members of `MetricName` in declaration order, which is also the
iteration order of `{name: 0 for name in MetricName}` in `compute_metrics`. -/
def metricNamesInOrder : List MetricName :=
  [.FULL_SCAN_OVERHEAD, .WORST_SCAN_OVERHEAD, .FILE_COUNT, .WORST_FILE_COUNT,
   .AVG_FILE_SIZE, .WORST_AVG_FILE_SIZE, .TOTAL_TABLE_SIZE,
   .LARGEST_PARTITION_SIZE, .TOTAL_PARTITIONS]

/-- The three concrete `TableMetric` subclasses (`IntMetric`, `DurationMetric`,
`SizeMetric`). -/
inductive ValueKind where
  | INT
  | DURATION
  | SIZE
deriving DecidableEq, Repr

/-- The `metric_map` of `TableMetric.create_metric`: for each name, the
subclass, `local_mode_supported` and `show_improvement`. -/
def metricConfig : MetricName → ValueKind × Bool × Bool
  | .FULL_SCAN_OVERHEAD => (.DURATION, true, true)
  | .WORST_SCAN_OVERHEAD => (.DURATION, true, true)
  | .FILE_COUNT => (.INT, true, true)
  | .WORST_FILE_COUNT => (.INT, true, true)
  | .AVG_FILE_SIZE => (.SIZE, true, false)
  | .WORST_AVG_FILE_SIZE => (.SIZE, false, false)
  | .TOTAL_TABLE_SIZE => (.SIZE, true, true)
  | .LARGEST_PARTITION_SIZE => (.SIZE, true, true)
  | .TOTAL_PARTITIONS => (.INT, true, true)

/-- An improvement percentage: either a finite number or Python's
`float('inf')`. -/
inductive Improvement where
  | val : ℚ → Improvement
  | posInf : Improvement
deriving DecidableEq, Repr

/-- `TableMetric._calculate_improvement`: `0` if `before == 0 and after == 0`,
else `(1 - after / before) * 100` if `before != 0`, else `float('inf')`. -/
def calculateImprovement (before after : ℚ) : Improvement :=
  if before = 0 ∧ after = 0 then .val 0
  else if before ≠ 0 then .val ((1 - after / before) * 100)
  else .posInf

/-- Written from the spec's words (§4.5): `improvementPct = 0` if
`before == 0 ∧ after == 0`; `(1 − after/before) * 100` if `before ≠ 0`;
`+∞` if `before == 0 ∧ after ≠ 0`. -/
def improvementPctSpec (before after : ℚ) : Improvement :=
  if before = 0 then (if after = 0 then .val 0 else .posInf)
  else .val ((1 - after / before) * 100)

/-- A constructed `TableMetric` object (`metrics/table_metric.py`): the class
of the object is `kind`; `improvement` is computed at construction time only
when `after` is not `None`. -/
structure TableMetric where
  name : MetricName
  kind : ValueKind
  before : ℚ
  after : Option ℚ
  improvement : Option Improvement
  display_in_local : Bool
  display_improvement : Bool
deriving DecidableEq, Repr

/-- `TableMetric.create_metric`: dispatch on `metric_map` and build the
subclass instance (`__init__` computes `improvement` iff `after` is present).
The `ValueError` branch for an unknown name is unreachable here because
`MetricName` is a closed enumeration. -/
def create_metric (name : MetricName) (before : ℚ) (after : Option ℚ) :
    TableMetric :=
  { name := name
    kind := (metricConfig name).1
    before := before
    after := after
    improvement := after.map (fun a => calculateImprovement before a)
    display_in_local := (metricConfig name).2.1
    display_improvement := (metricConfig name).2.2 }

/-- `TableMetric.__eq__`: note that the source compares `self.after` with
`self.after` (not with `other.after`). -/
def metricEq (x y : TableMetric) : Bool :=
  decide (x.name = y.name) && decide (x.before = y.before) &&
    decide (x.after = x.after)

/-- Round-half-even at integer precision, the rounding used by CPython's
`format(x, '.2f')` (applied here to the exact rational value). -/
def roundHalfEven (q : ℚ) : ℤ :=
  let f := Int.floor q
  let r := q - f
  if r < 1 / 2 then f
  else if 1 / 2 < r then f + 1
  else if f % 2 = 0 then f else f + 1

/-- Render a natural number as two decimal digits (zero padded). -/
def pad2 (n : ℕ) : String :=
  if n < 10 then "0" ++ toString n else toString n

/-- Python `f"{q:.2f}"` on the exact rational value: two decimals,
round-half-even, with a leading minus sign for negative values. -/
def fmt2 (q : ℚ) : String :=
  let n := roundHalfEven (q * 100)
  let sign := if n < 0 then "-" else ""
  sign ++ toString (n.natAbs / 100) ++ "." ++ pad2 (n.natAbs % 100)

/-- Python `str.rstrip(c)` for a single strip character. -/
def rstripChar (c : Char) (s : String) : String :=
  String.mk ((s.data.reverse.dropWhile (fun x => x = c)).reverse)

/-- `total_seconds = milliseconds / 1000` in `DurationMetric._format_duration`. -/
def durTotalSeconds (ms : ℕ) : ℚ := (ms : ℚ) / 1000

/-- Python `a % b` on non-negative numbers: `a - b * floor(a / b)`. -/
def qmod (a b : ℚ) : ℚ := a - b * Int.floor (a / b)

/-- `hours = int(total_seconds // 3600)`. -/
def durHours (ms : ℕ) : ℤ := Int.floor (durTotalSeconds ms / 3600)

/-- `minutes = int((total_seconds % 3600) // 60)`. -/
def durMinutes (ms : ℕ) : ℤ := Int.floor (qmod (durTotalSeconds ms) 3600 / 60)

/-- `seconds = total_seconds % 60`. -/
def durSeconds (ms : ℕ) : ℚ := qmod (durTotalSeconds ms) 60

/-- `DurationMetric._format_duration`.  `int(seconds)` truncates; the inputs
here are non-negative so it coincides with the floor. -/
def format_duration (ms : ℕ) : String :=
  let hours := durHours ms
  let minutes := durMinutes ms
  let seconds := durSeconds ms
  if 0 < hours then
    toString hours ++ "h " ++ toString minutes ++ "m " ++
      toString (Int.floor seconds) ++ "s"
  else if 0 < minutes then
    toString minutes ++ "m " ++ toString (Int.floor seconds) ++ "s"
  else if 0 < seconds ∧ seconds < 1 / 100 then "<0.01s"
  else rstripChar '.' (rstripChar '0' (fmt2 seconds)) ++ "s"

/-- Render the improvement value as Python's `f"{value:.2f}%"` does
(`float('inf')` prints as `inf`). -/
def formatImprovement : Improvement → String
  | .val q => fmt2 q ++ "%"
  | .posInf => "inf%"

/-- `TableMetric.get_improvement_value` (the base-class version): empty when
`display_improvement` is false or when `improvement` is `None`. -/
def getImprovementValueBase (m : TableMetric) : String :=
  if !m.display_improvement then ""
  else
    match m.improvement with
    | some i => formatImprovement i
    | none => ""

/-- `DurationMetric.get_improvement_value`: evaluates
`self.before < 10 and self.after < 10`.  When `before < 10` and `after` is
`None`, the second operand compares `None` with `10`, which raises a
`TypeError` in Python 3 — modelled as `none`. -/
def durationGetImprovementValue (m : TableMetric) : Option String :=
  if m.before < 10 then
    match m.after with
    | none => none
    | some a =>
      if a < 10 then some "0.00%" else some (getImprovementValueBase m)
  else some (getImprovementValueBase m)

/-- Requesting a metric's improvement display string: virtual dispatch on the
object's class (`DurationMetric` overrides the base implementation). -/
def getImprovementValue (m : TableMetric) : Option String :=
  match m.kind with
  | .DURATION => durationGetImprovementValue m
  | _ => some (getImprovementValueBase m)

/-- `DataFileContent`: `DATA` vs. the delete kinds. -/
inductive DFContent where
  | data
  | deletes
deriving DecidableEq, Repr

/-- A `DataFile` as consumed by `MetricsCalculator.compute_metrics`.
`partitionKey` stands for `MetricsCalculator.deterministic_repr(file.partition)`,
the string fingerprint under which the file is grouped. -/
structure DataFile where
  partitionKey : String
  file_size_in_bytes : ℕ
  content : DFContent
deriving DecidableEq, Repr

/-- `PartitionMetrics` from `table_metrics.py`. -/
structure PartitionMetrics where
  file_count : ℕ
  total_size : ℕ
  scan_overhead : ℕ
deriving DecidableEq, Repr

/-- `PartitionMetrics.average_file_size`:
`total_size / file_count if file_count > 0 else 0`. -/
def PartitionMetrics.average_file_size (p : PartitionMetrics) : ℚ :=
  if 0 < p.file_count then (p.total_size : ℚ) / p.file_count else 0

/-- `PartitionMetrics.is_empty`. -/
def PartitionMetrics.is_empty (p : PartitionMetrics) : Bool :=
  p.file_count = 0

/-- The per-file scan overhead `calc_read_file_cost(size) * MILLISECONDS_PER_SCAN`. -/
def fileOverhead (f : DataFile) : ℕ :=
  calc_read_file_cost f.file_size_in_bytes * MILLISECONDS_PER_SCAN

/-- The per-partition update of pass 1: `partition_metrics[partition]` and
`partition_files[partition]` are filled together, so they are modelled as one
insertion-ordered association list (Python dicts iterate in insertion order). -/
def upsertPartition :
    List (String × PartitionMetrics × List DataFile) → DataFile →
      List (String × PartitionMetrics × List DataFile)
  | [], f =>
    [(f.partitionKey, ⟨1, f.file_size_in_bytes, fileOverhead f⟩, [f])]
  | (k, pm, fs) :: rest, f =>
    if k = f.partitionKey then
      (k, ⟨pm.file_count + 1, pm.total_size + f.file_size_in_bytes,
           pm.scan_overhead + fileOverhead f⟩, fs ++ [f]) :: rest
    else (k, pm, fs) :: upsertPartition rest f

/-- The accumulator of pass 1 of `compute_metrics`. -/
structure Pass1 where
  file_count : ℕ
  total_table_size : ℕ
  full_scan_overhead : ℕ
  total_data_files_count : ℕ
  total_data_files_size : ℕ
  partitions : List (String × PartitionMetrics × List DataFile)
deriving Repr

/-- The body of the `for file in files` loop of `compute_metrics`. -/
def pass1Step (st : Pass1) (file : DataFile) : Pass1 :=
  { file_count := st.file_count + 1
    total_table_size := st.total_table_size + file.file_size_in_bytes
    full_scan_overhead := st.full_scan_overhead + fileOverhead file
    total_data_files_count :=
      st.total_data_files_count + (if file.content = .data then 1 else 0)
    total_data_files_size :=
      st.total_data_files_size +
        (if file.content = .data then file.file_size_in_bytes else 0)
    partitions := upsertPartition st.partitions file }

/-- The initial pass-1 state: all counters zero except
`metrics[FULL_SCAN_OVERHEAD] = manifest_files_count * MILLISECONDS_PER_SCAN`. -/
def pass1Init (manifest_files_count : ℕ) : Pass1 :=
  ⟨0, 0, manifest_files_count * MILLISECONDS_PER_SCAN, 0, 0, []⟩

/-- Python `min(gen, default=0)` over rationals. -/
def pyMin : List ℚ → ℚ
  | [] => 0
  | x :: xs => xs.foldl min x

/-- Python `max(gen, default=0)` over naturals. -/
def pyMax : List ℕ → ℕ
  | [] => 0
  | x :: xs => xs.foldl max x

/-- `[file.file_size_in_bytes for file in files if file.content == DATA]`. -/
def dataFileSizes (files : List DataFile) : List ℕ :=
  (files.filter (fun f => f.content = .data)).map (fun f => f.file_size_in_bytes)

/-- Pass 2, per partition: `len(new_partition)` after regrouping. -/
def partitionAfterCount (files : List DataFile) : ℕ :=
  (build_partition_groups (dataFileSizes files) MAX_GROUP_BYTE_SIZE).length

/-- Pass 2, per partition:
`sum(calc_read_file_cost(sum(group)) for group in new_partition) * MILLISECONDS_PER_SCAN`. -/
def partitionAfterOverhead (files : List DataFile) : ℕ :=
  ((build_partition_groups (dataFileSizes files) MAX_GROUP_BYTE_SIZE).map
      (fun group => calc_read_file_cost group.sum)).sum * MILLISECONDS_PER_SCAN

/-- The state of the worst-partition loop of
`_compute_after_and_worst_metrics`: the `after` and `worst_partitions` dict
entries plus the two running maxima.  Values are integers (`ℤ`) because the
reductions `before - after` are Python int subtractions. -/
structure AfterWorst where
  afterFileCount : ℤ
  afterFullScanOverhead : ℤ
  maxFileCountReduction : ℤ
  worstFileCountBefore : ℤ
  worstFileCountAfter : ℤ
  maxFileScanReduction : ℤ
  worstScanOverheadBefore : ℤ
  worstScanOverheadAfter : ℤ
deriving DecidableEq, Repr

/-- All-zero initial state (the dict initialisations at the top of
`_compute_after_and_worst_metrics`). -/
def afterWorstInit : AfterWorst := ⟨0, 0, 0, 0, 0, 0, 0, 0⟩

/-- One iteration of the `for partition_name, new_partition in
partition_new_sizes.items()` loop, for the partition with pass-1 metrics `pm`
and file list `files`.  The two `if` updates use each their own running
maximum and replace dict values for independent keys, so they are rendered as
independent conditional fields. -/
def afterWorstStep (st : AfterWorst) (p : PartitionMetrics × List DataFile) :
    AfterWorst :=
  let files_count : ℤ := partitionAfterCount p.2
  let partition_overhead : ℤ := partitionAfterOverhead p.2
  let file_count_reduction : ℤ := (p.1.file_count : ℤ) - files_count
  let file_scan_reduction : ℤ := (p.1.scan_overhead : ℤ) - partition_overhead
  { afterFileCount := st.afterFileCount + files_count
    afterFullScanOverhead := st.afterFullScanOverhead + partition_overhead
    maxFileCountReduction :=
      if st.maxFileCountReduction < file_count_reduction then
        file_count_reduction
      else st.maxFileCountReduction
    worstFileCountBefore :=
      if st.maxFileCountReduction < file_count_reduction then
        (p.1.file_count : ℤ)
      else st.worstFileCountBefore
    worstFileCountAfter :=
      if st.maxFileCountReduction < file_count_reduction then files_count
      else st.worstFileCountAfter
    maxFileScanReduction :=
      if st.maxFileScanReduction < file_scan_reduction then file_scan_reduction
      else st.maxFileScanReduction
    worstScanOverheadBefore :=
      if st.maxFileScanReduction < file_scan_reduction then
        (p.1.scan_overhead : ℤ)
      else st.worstScanOverheadBefore
    worstScanOverheadAfter :=
      if st.maxFileScanReduction < file_scan_reduction then partition_overhead
      else st.worstScanOverheadAfter }

/-- `MetricsCalculator._compute_after_and_worst_metrics`, taking the
partitions in dict (= first-seen) order. -/
def compute_after_and_worst_metrics
    (partitions : List (PartitionMetrics × List DataFile)) : AfterWorst :=
  partitions.foldl afterWorstStep afterWorstInit

/-- `MetricsCalculator.compute_metrics`: pass 1, the derived before-metrics,
pass 2, and the final `{**metrics, **worst}` merge handed to the factory in
`MetricName` insertion order.  The merge only overwrites existing keys, so
`all_metrics.items()` keeps the enumeration order of the seeding
comprehension `{name: 0 for name in MetricName}`. -/
def compute_metrics (files : List DataFile) (manifest_files_count : ℕ) :
    List TableMetric :=
  let st := files.foldl pass1Step (pass1Init manifest_files_count)
  let partitionList : List (PartitionMetrics × List DataFile) :=
    st.partitions.map (fun x => (x.2.1, x.2.2))
  let avg_file_size : ℚ :=
    if st.total_data_files_count ≠ 0 then
      (st.total_data_files_size : ℚ) / st.total_data_files_count
    else 0
  let worst_avg_file_size : ℚ :=
    pyMin (((partitionList.map Prod.fst).filter
        (fun p => ¬ p.is_empty)).map PartitionMetrics.average_file_size)
  let largest_partition_size : ℕ :=
    pyMax ((partitionList.map Prod.fst).map PartitionMetrics.total_size)
  let aw := compute_after_and_worst_metrics partitionList
  let beforeValue : MetricName → ℚ := fun name =>
    match name with
    | .FULL_SCAN_OVERHEAD => st.full_scan_overhead
    | .WORST_SCAN_OVERHEAD => aw.worstScanOverheadBefore
    | .FILE_COUNT => st.file_count
    | .WORST_FILE_COUNT => aw.worstFileCountBefore
    | .AVG_FILE_SIZE => avg_file_size
    | .WORST_AVG_FILE_SIZE => worst_avg_file_size
    | .TOTAL_TABLE_SIZE => st.total_table_size
    | .LARGEST_PARTITION_SIZE => largest_partition_size
    | .TOTAL_PARTITIONS => partitionList.length
  let afterValue : MetricName → Option ℚ := fun name =>
    match name with
    | .FILE_COUNT => some aw.afterFileCount
    | .WORST_FILE_COUNT => some aw.worstFileCountAfter
    | .FULL_SCAN_OVERHEAD => some aw.afterFullScanOverhead
    | .WORST_SCAN_OVERHEAD => some aw.worstScanOverheadAfter
    | _ => none
  metricNamesInOrder.map (fun name =>
    create_metric name (beforeValue name) (afterValue name))

/-- The reduction `before - after` of a before/after pair. -/
def reduction (p : ℤ × ℤ) : ℤ := p.1 - p.2

/-- The generic single-metric worst-partition scan: keep the running maximal
reduction and the pair that first achieved it (strict improvement only). -/
def selectWorstGo (best : ℤ) (cur : ℤ × ℤ) : List (ℤ × ℤ) → ℤ × (ℤ × ℤ)
  | [] => (best, cur)
  | p :: rest =>
    if best < reduction p then selectWorstGo (reduction p) p rest
    else selectWorstGo best cur rest

/-- `max` of the reductions of `ps` folded onto a starting value. -/
def maxFrom (best : ℤ) (ps : List (ℤ × ℤ)) : ℤ :=
  ps.foldl (fun a p => max a (reduction p)) best

/-- Written from the spec's words (§4.4 pass 2): the largest absolute
reduction over all partitions, at least `0`. -/
def bestReduction (ps : List (ℤ × ℤ)) : ℤ := maxFrom 0 ps

/-- Written from the spec's words (§4.4 pass 2): the before/after pair of the
first-seen partition achieving the largest absolute reduction, or `(0, 0)` if
no partition has a positive reduction. -/
def selectWorstSpec (ps : List (ℤ × ℤ)) : ℤ × ℤ :=
  if 0 < bestReduction ps then
    (ps.find? (fun p => reduction p == bestReduction ps)).getD (0, 0)
  else (0, 0)

theorem le_maxFrom : ∀ (ps : List (ℤ × ℤ)) (best : ℤ), best ≤ maxFrom best ps := by
  intro ps
  induction ps with
  | nil => intro best; exact le_refl best
  | cons p rest ih =>
    intro best
    exact le_trans (le_max_left best (reduction p)) (ih (max best (reduction p)))

theorem maxFrom_mono : ∀ (ps : List (ℤ × ℤ)) {b b' : ℤ}, b ≤ b' →
    maxFrom b ps ≤ maxFrom b' ps := by
  intro ps
  induction ps with
  | nil => intro b b' h; exact h
  | cons p rest ih =>
    intro b b' h
    exact ih (max_le_max h (le_refl (reduction p)))

theorem selectWorstGo_fst : ∀ (ps : List (ℤ × ℤ)) (best : ℤ) (cur : ℤ × ℤ),
    (selectWorstGo best cur ps).1 = maxFrom best ps := by
  intro ps
  induction ps with
  | nil => intro best cur; rfl
  | cons p rest ih =>
    intro best cur
    by_cases h : best < reduction p
    · rw [show maxFrom best (p :: rest) = maxFrom (max best (reduction p)) rest
          from rfl, max_eq_right (le_of_lt h)]
      simp [selectWorstGo, h, ih]
    · rw [show maxFrom best (p :: rest) = maxFrom (max best (reduction p)) rest
          from rfl, max_eq_left (not_lt.mp h)]
      simp [selectWorstGo, h, ih]

theorem selectWorstGo_snd_of_le :
    ∀ (ps : List (ℤ × ℤ)) (best : ℤ) (cur : ℤ × ℤ),
      ¬ best < maxFrom best ps → (selectWorstGo best cur ps).2 = cur := by
  intro ps
  induction ps with
  | nil => intro best cur _; rfl
  | cons p rest ih =>
    intro best cur h
    have hM : maxFrom best (p :: rest) = maxFrom (max best (reduction p)) rest :=
      rfl
    have hred : ¬ best < reduction p := by
      intro hlt
      exact h (by
        rw [hM]
        exact lt_of_lt_of_le hlt
          (le_trans (le_max_right best (reduction p))
            (le_maxFrom rest (max best (reduction p)))))
    have hmax : max best (reduction p) = best := max_eq_left (not_lt.mp hred)
    rw [show selectWorstGo best cur (p :: rest) =
        if best < reduction p then selectWorstGo (reduction p) p rest
        else selectWorstGo best cur rest from rfl, if_neg hred]
    exact ih best cur (by
      intro hlt
      apply h
      rw [hM, hmax]
      exact hlt)

theorem selectWorstGo_find :
    ∀ (ps : List (ℤ × ℤ)) (best : ℤ) (cur : ℤ × ℤ),
      best < maxFrom best ps →
        ps.find? (fun p => reduction p == maxFrom best ps) =
          some (selectWorstGo best cur ps).2 := by
  intro ps
  induction ps with
  | nil => intro best cur h; exact absurd h (lt_irrefl best)
  | cons p rest ih =>
    intro best cur h
    have hM : maxFrom best (p :: rest) = maxFrom (max best (reduction p)) rest :=
      rfl
    rw [List.find?_cons]
    by_cases hred : best < reduction p
    · have hmax : max best (reduction p) = reduction p := max_eq_right (le_of_lt hred)
      by_cases h2 : reduction p < maxFrom (reduction p) rest
      · have hne : (reduction p == maxFrom best (p :: rest)) = false := by
          rw [hM, hmax]
          simp only [beq_eq_false_iff_ne, ne_eq]
          exact ne_of_lt h2
        rw [hne]
        rw [show selectWorstGo best cur (p :: rest) =
            selectWorstGo (reduction p) p rest by simp [selectWorstGo, hred]]
        have hres := ih (reduction p) p h2
        simp only [hM, hmax]
        exact hres
      · have hMeq : maxFrom (reduction p) rest = reduction p :=
          le_antisymm (not_lt.mp h2) (le_maxFrom rest (reduction p))
        have hpos : (reduction p == maxFrom best (p :: rest)) = true := by
          rw [hM, hmax, hMeq]
          simp
        rw [hpos]
        rw [show selectWorstGo best cur (p :: rest) =
            selectWorstGo (reduction p) p rest by simp [selectWorstGo, hred]]
        rw [selectWorstGo_snd_of_le rest (reduction p) p (by rw [hMeq]; exact lt_irrefl _)]
    · have hmax : max best (reduction p) = best := max_eq_left (not_lt.mp hred)
      have hMb : maxFrom best (p :: rest) = maxFrom best rest := by rw [hM, hmax]
      have hb : best < maxFrom best rest := by rw [hMb] at h; exact h
      have hne : (reduction p == maxFrom best (p :: rest)) = false := by
        rw [hMb]
        simp only [beq_eq_false_iff_ne, ne_eq]
        intro heq
        rw [heq] at hred
        exact hred hb
      rw [hne]
      rw [show selectWorstGo best cur (p :: rest) =
          selectWorstGo best cur rest by simp [selectWorstGo, hred]]
      have hres := ih best cur hb
      simp only [hMb]
      exact hres

theorem selectWorstGo_eq_spec (ps : List (ℤ × ℤ)) :
    (selectWorstGo 0 (0, 0) ps).2 = selectWorstSpec ps := by
  rw [selectWorstSpec]
  by_cases h : 0 < bestReduction ps
  · rw [if_pos h]
    rw [show bestReduction ps = maxFrom 0 ps from rfl] at h ⊢
    rw [selectWorstGo_find ps 0 (0, 0) h]
    rfl
  · rw [if_neg h]
    exact selectWorstGo_snd_of_le ps 0 (0, 0)
      (by rw [show bestReduction ps = maxFrom 0 ps from rfl] at h; exact h)

/-- The before/after file-count pair of one partition in pass 2. -/
def fcPair (p : PartitionMetrics × List DataFile) : ℤ × ℤ :=
  ((p.1.file_count : ℤ), (partitionAfterCount p.2 : ℤ))

/-- The before/after scan-overhead pair of one partition in pass 2. -/
def soPair (p : PartitionMetrics × List DataFile) : ℤ × ℤ :=
  ((p.1.scan_overhead : ℤ), (partitionAfterOverhead p.2 : ℤ))

theorem afterWorstStep_fc (st : AfterWorst) (p : PartitionMetrics × List DataFile) :
    ((afterWorstStep st p).maxFileCountReduction,
     ((afterWorstStep st p).worstFileCountBefore,
      (afterWorstStep st p).worstFileCountAfter)) =
      if st.maxFileCountReduction < reduction (fcPair p) then
        (reduction (fcPair p), fcPair p)
      else
        (st.maxFileCountReduction,
          (st.worstFileCountBefore, st.worstFileCountAfter)) := by
  by_cases h : st.maxFileCountReduction <
      (p.1.file_count : ℤ) - (partitionAfterCount p.2 : ℤ)
  · simp only [afterWorstStep, reduction, fcPair, if_pos h]
  · simp only [afterWorstStep, reduction, fcPair, if_neg h]

theorem afterWorstStep_so (st : AfterWorst) (p : PartitionMetrics × List DataFile) :
    ((afterWorstStep st p).maxFileScanReduction,
     ((afterWorstStep st p).worstScanOverheadBefore,
      (afterWorstStep st p).worstScanOverheadAfter)) =
      if st.maxFileScanReduction < reduction (soPair p) then
        (reduction (soPair p), soPair p)
      else
        (st.maxFileScanReduction,
          (st.worstScanOverheadBefore, st.worstScanOverheadAfter)) := by
  by_cases h : st.maxFileScanReduction <
      (p.1.scan_overhead : ℤ) - (partitionAfterOverhead p.2 : ℤ)
  · simp only [afterWorstStep, reduction, soPair, if_pos h]
  · simp only [afterWorstStep, reduction, soPair, if_neg h]

theorem afterWorst_fc_proj :
    ∀ (ps : List (PartitionMetrics × List DataFile)) (st : AfterWorst),
      ((ps.foldl afterWorstStep st).maxFileCountReduction,
       ((ps.foldl afterWorstStep st).worstFileCountBefore,
        (ps.foldl afterWorstStep st).worstFileCountAfter)) =
        selectWorstGo st.maxFileCountReduction
          (st.worstFileCountBefore, st.worstFileCountAfter) (ps.map fcPair) := by
  intro ps
  induction ps with
  | nil => intro st; rfl
  | cons p rest ih =>
    intro st
    rw [List.foldl_cons, List.map_cons, ih (afterWorstStep st p)]
    have hstep := afterWorstStep_fc st p
    by_cases h : st.maxFileCountReduction < reduction (fcPair p)
    · rw [if_pos h] at hstep
      rw [show selectWorstGo st.maxFileCountReduction
          (st.worstFileCountBefore, st.worstFileCountAfter)
          (fcPair p :: rest.map fcPair) =
          selectWorstGo (reduction (fcPair p)) (fcPair p) (rest.map fcPair) by
        simp [selectWorstGo, h]]
      rw [show (afterWorstStep st p).maxFileCountReduction =
          reduction (fcPair p) from congrArg Prod.fst hstep]
      rw [show (afterWorstStep st p).worstFileCountBefore = (fcPair p).1 from
        congrArg (fun x => x.2.1) hstep]
      rw [show (afterWorstStep st p).worstFileCountAfter = (fcPair p).2 from
        congrArg (fun x => x.2.2) hstep]
    · rw [if_neg h] at hstep
      rw [show selectWorstGo st.maxFileCountReduction
          (st.worstFileCountBefore, st.worstFileCountAfter)
          (fcPair p :: rest.map fcPair) =
          selectWorstGo st.maxFileCountReduction
            (st.worstFileCountBefore, st.worstFileCountAfter)
            (rest.map fcPair) by simp [selectWorstGo, h]]
      rw [show (afterWorstStep st p).maxFileCountReduction =
          st.maxFileCountReduction from congrArg Prod.fst hstep]
      rw [show (afterWorstStep st p).worstFileCountBefore =
          st.worstFileCountBefore from congrArg (fun x => x.2.1) hstep]
      rw [show (afterWorstStep st p).worstFileCountAfter =
          st.worstFileCountAfter from congrArg (fun x => x.2.2) hstep]

theorem afterWorst_so_proj :
    ∀ (ps : List (PartitionMetrics × List DataFile)) (st : AfterWorst),
      ((ps.foldl afterWorstStep st).maxFileScanReduction,
       ((ps.foldl afterWorstStep st).worstScanOverheadBefore,
        (ps.foldl afterWorstStep st).worstScanOverheadAfter)) =
        selectWorstGo st.maxFileScanReduction
          (st.worstScanOverheadBefore, st.worstScanOverheadAfter)
          (ps.map soPair) := by
  intro ps
  induction ps with
  | nil => intro st; rfl
  | cons p rest ih =>
    intro st
    rw [List.foldl_cons, List.map_cons, ih (afterWorstStep st p)]
    have hstep := afterWorstStep_so st p
    by_cases h : st.maxFileScanReduction < reduction (soPair p)
    · rw [if_pos h] at hstep
      rw [show selectWorstGo st.maxFileScanReduction
          (st.worstScanOverheadBefore, st.worstScanOverheadAfter)
          (soPair p :: rest.map soPair) =
          selectWorstGo (reduction (soPair p)) (soPair p) (rest.map soPair) by
        simp [selectWorstGo, h]]
      rw [show (afterWorstStep st p).maxFileScanReduction =
          reduction (soPair p) from congrArg Prod.fst hstep]
      rw [show (afterWorstStep st p).worstScanOverheadBefore = (soPair p).1 from
        congrArg (fun x => x.2.1) hstep]
      rw [show (afterWorstStep st p).worstScanOverheadAfter = (soPair p).2 from
        congrArg (fun x => x.2.2) hstep]
    · rw [if_neg h] at hstep
      rw [show selectWorstGo st.maxFileScanReduction
          (st.worstScanOverheadBefore, st.worstScanOverheadAfter)
          (soPair p :: rest.map soPair) =
          selectWorstGo st.maxFileScanReduction
            (st.worstScanOverheadBefore, st.worstScanOverheadAfter)
            (rest.map soPair) by simp [selectWorstGo, h]]
      rw [show (afterWorstStep st p).maxFileScanReduction =
          st.maxFileScanReduction from congrArg Prod.fst hstep]
      rw [show (afterWorstStep st p).worstScanOverheadBefore =
          st.worstScanOverheadBefore from congrArg (fun x => x.2.1) hstep]
      rw [show (afterWorstStep st p).worstScanOverheadAfter =
          st.worstScanOverheadAfter from congrArg (fun x => x.2.2) hstep]

/-- The six numeric fields of each named sub-object of an `analysisResults`
entry, plus the two data-file fields used by the average metrics
(`AVG_METRICS` reads `totalDataFileCount` / `totalDataFileSizeBytes`). -/
structure SubMetrics where
  totalSizeBytes : ℚ
  targetSizeBytes : ℚ
  currentScanOverheadMillis : ℚ
  targetScanOverheadMillis : ℚ
  totalFilesCount : ℚ
  targetFilesCount : ℚ
  totalDataFileCount : ℚ
  totalDataFileSizeBytes : ℚ
deriving DecidableEq, Repr

/-- One entry of `data['analysisResults']`, with the fields `parse_response`
extracts through `NestedDictAccessor`. -/
structure AnalysisEntry where
  tableName : List Char
  table : SubMetrics
  totalPartitionsCount : ℚ
  largestPartition : SubMetrics
  worstOverheadPartition : SubMetrics
  worstFilesCountPartition : SubMetrics
  worstAvgFileSizePartition : SubMetrics
deriving Repr

/-- `calculate_average_metric`: `avg = size / count if count != 0 else 0`,
over `totalDataFileCount`/`targetFilesCount` and
`totalDataFileSizeBytes`/`targetSizeBytes` of the named sub-object. -/
def calculate_average_metric (metric : MetricName) (s : SubMetrics) :
    TableMetric :=
  let before_avg : ℚ :=
    if s.totalDataFileCount ≠ 0 then
      s.totalDataFileSizeBytes / s.totalDataFileCount
    else 0
  let after_avg : ℚ :=
    if s.targetFilesCount ≠ 0 then s.targetSizeBytes / s.targetFilesCount
    else 0
  create_metric metric before_avg (some after_avg)

/-- The `table_metrics` list of one entry of `parse_response`, before
sorting: the six `DIAGNOSTICS_METRICS_MAP` metrics in map-insertion order,
then the two average metrics, then `TOTAL_PARTITIONS`. -/
def entryMetricsUnsorted (e : AnalysisEntry) : List TableMetric :=
  [create_metric .FULL_SCAN_OVERHEAD e.table.currentScanOverheadMillis
      (some e.table.targetScanOverheadMillis),
   create_metric .WORST_SCAN_OVERHEAD
      e.worstOverheadPartition.currentScanOverheadMillis
      (some e.worstOverheadPartition.targetScanOverheadMillis),
   create_metric .FILE_COUNT e.table.totalFilesCount
      (some e.table.targetFilesCount),
   create_metric .WORST_FILE_COUNT e.worstFilesCountPartition.totalFilesCount
      (some e.worstFilesCountPartition.targetFilesCount),
   create_metric .TOTAL_TABLE_SIZE e.table.totalSizeBytes
      (some e.table.targetSizeBytes),
   create_metric .LARGEST_PARTITION_SIZE e.largestPartition.totalSizeBytes
      (some e.largestPartition.targetSizeBytes)] ++
  [calculate_average_metric .AVG_FILE_SIZE e.table,
   calculate_average_metric .WORST_AVG_FILE_SIZE e.worstAvgFileSizePartition] ++
  [create_metric .TOTAL_PARTITIONS e.totalPartitionsCount none]

/-- `sorted(table_metrics, key=lambda x: x.name)`: `OrderedEnum` compares by
declaration rank. -/
def sortMetricsByName (l : List TableMetric) : List TableMetric :=
  List.insertionSort (fun a b => a.name.rank ≤ b.name.rank) l

/-- The per-entry metric list returned by `parse_response`, sorted by
`MetricName` rank. -/
def parseEntryMetrics (e : AnalysisEntry) : List TableMetric :=
  sortMetricsByName (entryMetricsUnsorted e)

/-- One entry of `parse_response`: the table-identifier resolution can raise
(`Table(*name.split("."))`), in which case the whole entry fails. -/
def parseEntry (e : AnalysisEntry) : Option (Table × List TableMetric) :=
  (resolveTableName e.tableName).map (fun t => (t, parseEntryMetrics e))

/-- C1: In `_compute_after_and_worst_metrics`, the `WORST_FILE_COUNT` and
`WORST_SCAN_OVERHEAD` before/after values are tracked independently, each as
the before/after pair of the first-seen partition achieving the largest
absolute reduction (`before - after`), updated only on strict improvement, and
both remain `(0, 0)` when no partition has a positive reduction — i.e. the
loop equals the declarative selection `selectWorstSpec` on each metric's
pair list. -/
theorem claim1_worst_partition_selection
    (partitions : List (PartitionMetrics × List DataFile)) :
    ((compute_after_and_worst_metrics partitions).worstFileCountBefore,
     (compute_after_and_worst_metrics partitions).worstFileCountAfter) =
      selectWorstSpec (partitions.map fcPair) ∧
    ((compute_after_and_worst_metrics partitions).worstScanOverheadBefore,
     (compute_after_and_worst_metrics partitions).worstScanOverheadAfter) =
      selectWorstSpec (partitions.map soPair) := by
  constructor
  · have h1 := congrArg Prod.snd (afterWorst_fc_proj partitions afterWorstInit)
    rw [← selectWorstGo_eq_spec]
    exact h1
  · have h1 := congrArg Prod.snd (afterWorst_so_proj partitions afterWorstInit)
    rw [← selectWorstGo_eq_spec]
    exact h1

/-- C2: `build_partition_groups` equals the reference algorithm from the spec
(sort ascending, close the running group exactly when its total already
strictly exceeds the bound, flush the final non-empty group), and on
`[10 MiB, 20 MiB, 30 MiB]` with bound `25 MiB` it returns
`[[10 MiB, 20 MiB], [30 MiB]]`. -/
theorem claim2_bin_packing_reference :
    (∀ (sizes : List ℕ) (maxGroupBytes : ℕ),
      build_partition_groups sizes maxGroupBytes =
        binPackSpec sizes maxGroupBytes) ∧
    build_partition_groups
        [10 * 1024 * 1024, 20 * 1024 * 1024, 30 * 1024 * 1024]
        (25 * 1024 * 1024) =
      [[10 * 1024 * 1024, 20 * 1024 * 1024], [30 * 1024 * 1024]] :=
  ⟨fun sizes m => build_partition_groups_eq_go sizes m, by decide⟩

/-- C3: `build_partition_groups` on the empty list returns no groups, and for
every input the concatenation of the returned groups is the input multiset
exactly (no size dropped or duplicated). -/
theorem claim3_bin_packing_multiset (m : ℕ) :
    build_partition_groups [] m = [] ∧
    ∀ sizes : List ℕ,
      (((build_partition_groups sizes m).flatten : List ℕ) : Multiset ℕ) =
        (sizes : Multiset ℕ) := by
  constructor
  · rfl
  · intro sizes
    rw [build_partition_groups_eq_go, binPackSpecGo_flatten]
    rw [List.nil_append]
    exact Multiset.coe_eq_coe.mpr (List.perm_insertionSort _ _)

/-- C4 counterexample: for the dotless name `"tbl"`, `parse_response`'s
resolution `Table(*"tbl".split("."))` raises a `TypeError` (one positional
argument for two parameters), modelled as `none` — the parse does not succeed
with an empty database as the claim states. -/
theorem claim4_counterexample :
    resolveTableName ['t', 'b', 'l'] = none := by decide

theorem splitOnChar_ne_nil (c : Char) : ∀ s : List Char, splitOnChar c s ≠ [] := by
  intro s
  induction s with
  | nil => simp [splitOnChar]
  | cons x xs ih =>
    by_cases hx : x = c
    · simp [splitOnChar, hx]
    · simp only [splitOnChar, if_neg hx]
      cases h : splitOnChar c xs with
      | nil => simp
      | cons g gs => simp

theorem splitOnChar_length (c : Char) : ∀ s : List Char,
    (splitOnChar c s).length = s.count c + 1 := by
  intro s
  induction s with
  | nil => simp [splitOnChar]
  | cons x xs ih =>
    by_cases hx : x = c
    · simp only [splitOnChar, if_pos hx, List.length_cons, List.count_cons, ih]
      simp [hx]
    · simp only [splitOnChar, if_neg hx]
      cases h : splitOnChar c xs with
      | nil => exact absurd h (splitOnChar_ne_nil c xs)
      | cons g gs =>
        rw [h] at ih
        simp only [List.length_cons] at ih
        simp only [List.length_cons, List.count_cons]
        have hcx : ¬ c = x := fun hcx => hx hcx.symm
        simp [hx, hcx]
        omega

theorem resolveTableName_isSome_iff (u : List Char) :
    (resolveTableName u).isSome = true ↔ u.count '.' = 1 := by
  have hlen := splitOnChar_length '.' u
  rw [resolveTableName]
  cases h : splitOnChar '.' u with
  | nil => exact absurd h (splitOnChar_ne_nil '.' u)
  | cons a l =>
    rw [h] at hlen
    cases l with
    | nil =>
      simp only [List.length_cons, List.length_nil] at hlen
      simp only [Option.isSome_none]
      constructor
      · intro hf; exact absurd hf (by simp)
      · intro hc; omega
    | cons b l2 =>
      cases l2 with
      | nil =>
        simp only [List.length_cons, List.length_nil] at hlen
        simp only [Option.isSome_some, true_iff]
        omega
      | cons d l3 =>
        simp only [List.length_cons] at hlen
        simp only [Option.isSome_none]
        constructor
        · intro hf; exact absurd hf (by simp)
        · intro hc; omega

/-- C4 (amended): `parse_response` resolves `table.name` by splitting on every
dot and spreading the pieces positionally, so it succeeds exactly when the
name has exactly one dot: a name with one dot and dot-free halves resolves to
`(database, tableName)`, while any name whose dot count differs from one — a
dotless name or one with two or more dots — makes the entry fail instead of
succeeding with an empty database.  The dotless-name fallback (whole string as
table name, empty database) belongs to `Table.from_full_name`, used for error
extraction. -/
theorem claim4_amended (db t s u : List Char)
    (hdb : '.' ∉ db) (ht : '.' ∉ t) (hs : '.' ∉ s) (hu : u.count '.' ≠ 1) :
    resolveTableName (db ++ '.' :: t) = some ⟨db, t⟩ ∧
    resolveTableName u = none ∧
    resolveTableName s = none ∧
    Table.from_full_name s = ⟨[], s⟩ := by
  refine ⟨?_, ?_, ?_, ?_⟩
  · rw [resolveTableName, splitOnChar_append_sep t hdb, splitOnChar_of_not_mem ht]
  · have hiff := resolveTableName_isSome_iff u
    cases hres : resolveTableName u with
    | none => rfl
    | some v =>
      rw [hres] at hiff
      simp only [Option.isSome_some, true_iff] at hiff
      exact absurd hiff hu
  · rw [resolveTableName, splitOnChar_of_not_mem hs]
  · rw [Table.from_full_name, splitOnceChar_of_not_mem (not_mem_pyStrip hs)]

/-- Witness for the amended C4 at the concrete names `"db.t"` (one dot:
success), `"a.b.c"` (two dots: failure) and `"x"` (no dot: failure). -/
theorem claim4_amended_witness :
    resolveTableName (['d', 'b'] ++ '.' :: ['t']) = some ⟨['d', 'b'], ['t']⟩ ∧
    resolveTableName ['a', '.', 'b', '.', 'c'] = none ∧
    resolveTableName ['x'] = none ∧
    Table.from_full_name ['x'] = ⟨[], ['x']⟩ :=
  claim4_amended ['d', 'b'] ['t'] ['x'] ['a', '.', 'b', '.', 'c']
    (by decide) (by decide) (by decide) (by decide)

/-- C5: `_calculate_improvement` implements the spec's piecewise improvement
percentage (`0` when both are zero, `(1 - after/before) * 100` when `before`
is non-zero, `+inf` when only `before` is zero), and in particular maps
`(100, 0)` to `100`, `(0, 0)` to `0` and `(100, 150)` to `-50`. -/
theorem claim5_improvement_formula :
    (∀ before after : ℚ,
      calculateImprovement before after = improvementPctSpec before after) ∧
    calculateImprovement 100 0 = .val 100 ∧
    calculateImprovement 0 0 = .val 0 ∧
    calculateImprovement 100 150 = .val (-50) := by
  refine ⟨?_, by norm_num [calculateImprovement],
    by norm_num [calculateImprovement], by norm_num [calculateImprovement]⟩
  intro b a
  by_cases hb : b = 0 <;> by_cases ha : a = 0 <;>
    simp [calculateImprovement, improvementPctSpec, hb, ha]

/-- C6 (code bug): a metric with `after` absent stores no improvement, and the
improvement display string is empty for the INT and SIZE kinds; but for a
DURATION metric with `before < 10` and `after` absent,
`DurationMetric.get_improvement_value` evaluates `self.after < 10` with
`after = None` and raises a `TypeError` (modelled as `none`) instead of
returning the empty string. -/
theorem claim6_duration_improvement_crash :
    (create_metric .FULL_SCAN_OVERHEAD 5 none).improvement = none ∧
    getImprovementValue (create_metric .FULL_SCAN_OVERHEAD 5 none) = none ∧
    getImprovementValue (create_metric .FILE_COUNT 5 none) = some "" ∧
    getImprovementValue (create_metric .TOTAL_TABLE_SIZE 5 none) = some "" := by
  refine ⟨rfl, ?_, rfl, rfl⟩
  rw [getImprovementValue]
  rw [show (create_metric .FULL_SCAN_OVERHEAD 5 none).kind = .DURATION from rfl]
  rw [durationGetImprovementValue]
  rw [if_pos (by norm_num [create_metric])]
  rfl

/-- C7 (amended): `compute_metrics` on an empty file sequence succeeds for
every `manifest_files_count`, and every metric resolves to `0` except
`FULL_SCAN_OVERHEAD`, whose before value is the seeded
`manifest_files_count * MILLISECONDS_PER_SCAN` (its after value is `0`). -/
theorem claim7_empty_files (n : ℕ) :
    (compute_metrics [] n).map (fun m => (m.name, m.before, m.after)) =
      [(.FULL_SCAN_OVERHEAD, ((n * MILLISECONDS_PER_SCAN : ℕ) : ℚ), some 0),
       (.WORST_SCAN_OVERHEAD, 0, some 0),
       (.FILE_COUNT, 0, some 0),
       (.WORST_FILE_COUNT, 0, some 0),
       (.AVG_FILE_SIZE, 0, none),
       (.WORST_AVG_FILE_SIZE, 0, none),
       (.TOTAL_TABLE_SIZE, 0, none),
       (.LARGEST_PARTITION_SIZE, 0, none),
       (.TOTAL_PARTITIONS, 0, none)] := rfl

/-- C7 counterexample: with `manifest_files_count = 1` and no files, not every
metric resolves to `0` — `FULL_SCAN_OVERHEAD.before` is `1`. -/
theorem claim7_counterexample :
    ¬ ∀ m ∈ compute_metrics ([] : List DataFile) 1, m.before = 0 := by decide

/-- C8: `_format_duration` renders `"{h}h {m}m {s}s"` when hours are positive,
`"{m}m {s}s"` when only minutes are positive (seconds truncated), `"<0.01s"`
for positive sub-centisecond values and otherwise seconds to two decimals with
trailing zeros and a trailing point stripped; the five spec examples hold, and
a DURATION improvement with `before = 9`, `after = 0` is forced to `"0.00%"`. -/
theorem claim8_duration_rendering :
    (∀ ms : ℕ, format_duration ms =
      if 0 < durHours ms then
        toString (durHours ms) ++ "h " ++ toString (durMinutes ms) ++ "m " ++
          toString (Int.floor (durSeconds ms)) ++ "s"
      else if 0 < durMinutes ms then
        toString (durMinutes ms) ++ "m " ++
          toString (Int.floor (durSeconds ms)) ++ "s"
      else if 0 < durSeconds ms ∧ durSeconds ms < 1 / 100 then "<0.01s"
      else rstripChar '.' (rstripChar '0' (fmt2 (durSeconds ms))) ++ "s") ∧
    format_duration 5500 = "5.5s" ∧
    format_duration 9 = "<0.01s" ∧
    format_duration 0 = "0s" ∧
    format_duration 3600000 = "1h 0m 0s" ∧
    format_duration 125000 = "2m 5s" ∧
    getImprovementValue (create_metric .FULL_SCAN_OVERHEAD 9 (some 0)) =
      some "0.00%" := by
  refine ⟨fun ms => rfl, ?_, ?_, ?_, ?_, ?_, ?_⟩
  · have hh : durHours 5500 = 0 := by norm_num [durHours, durTotalSeconds]
    have hm : durMinutes 5500 = 0 := by
      norm_num [durMinutes, qmod, durTotalSeconds]
    have hs : durSeconds 5500 = 11 / 2 := by
      norm_num [durSeconds, qmod, durTotalSeconds]
    have hr : roundHalfEven ((11 / 2 : ℚ) * 100) = 550 := by
      norm_num [roundHalfEven]
    rw [format_duration, hh, hm, hs]
    rw [if_neg (by norm_num), if_neg (by norm_num), if_neg (by norm_num)]
    simp only [fmt2, hr]
    decide
  · have hh : durHours 9 = 0 := by norm_num [durHours, durTotalSeconds]
    have hm : durMinutes 9 = 0 := by norm_num [durMinutes, qmod, durTotalSeconds]
    have hs : durSeconds 9 = 9 / 1000 := by
      norm_num [durSeconds, qmod, durTotalSeconds]
    rw [format_duration, hh, hm, hs]
    rw [if_neg (by norm_num), if_neg (by norm_num), if_pos (by norm_num)]
  · have hh : durHours 0 = 0 := by norm_num [durHours, durTotalSeconds]
    have hm : durMinutes 0 = 0 := by norm_num [durMinutes, qmod, durTotalSeconds]
    have hs : durSeconds 0 = 0 := by norm_num [durSeconds, qmod, durTotalSeconds]
    have hr : roundHalfEven ((0 : ℚ) * 100) = 0 := by norm_num [roundHalfEven]
    rw [format_duration, hh, hm, hs]
    rw [if_neg (by norm_num), if_neg (by norm_num), if_neg (by norm_num)]
    simp only [fmt2, hr]
    decide
  · have hh : durHours 3600000 = 1 := by norm_num [durHours, durTotalSeconds]
    have hm : durMinutes 3600000 = 0 := by
      norm_num [durMinutes, qmod, durTotalSeconds]
    have hs : durSeconds 3600000 = 0 := by
      norm_num [durSeconds, qmod, durTotalSeconds]
    rw [format_duration, hh, hm, hs]
    rw [if_pos (by norm_num)]
    decide
  · have hh : durHours 125000 = 0 := by norm_num [durHours, durTotalSeconds]
    have hm : durMinutes 125000 = 2 := by
      norm_num [durMinutes, qmod, durTotalSeconds]
    have hs : durSeconds 125000 = 5 := by
      norm_num [durSeconds, qmod, durTotalSeconds]
    rw [format_duration, hh, hm, hs]
    rw [if_neg (by norm_num), if_pos (by norm_num)]
    decide
  · rw [getImprovementValue]
    rw [show (create_metric .FULL_SCAN_OVERHEAD 9 (some 0)).kind = .DURATION
      from rfl]
    rw [durationGetImprovementValue]
    rw [if_pos (by norm_num [create_metric])]
    rw [show (create_metric MetricName.FULL_SCAN_OVERHEAD 9 (some 0)).after =
      some 0 from rfl]
    norm_num

/-- C9: both output paths produce the metric list in `MetricName` declaration
order — `compute_metrics` yields exactly one metric per name in enumeration
order, and the response parser's per-entry list is sorted into that same
order. -/
theorem claim9_metric_order :
    (∀ (files : List DataFile) (manifest_files_count : ℕ),
      (compute_metrics files manifest_files_count).map (fun m => m.name) =
        metricNamesInOrder) ∧
    ∀ e : AnalysisEntry,
      (parseEntryMetrics e).map (fun m => m.name) = metricNamesInOrder :=
  ⟨fun _ _ => rfl, fun _ => rfl⟩

/-- C10: metric equality never depends on the `after` fields — `__eq__`
compares `self.after` with itself, so `metricEq` reduces to comparing names
and before values, and two metrics with equal name and equal before values
are equal whatever their after values. -/
theorem claim10_eq_ignores_after (x y : TableMetric) :
    metricEq x y =
      (decide (x.name = y.name) && decide (x.before = y.before)) ∧
    (x.name = y.name → x.before = y.before → metricEq x y = true) := by
  have hself : decide (x.after = x.after) = true := by simp
  constructor
  · rw [metricEq, hself, Bool.and_true]
  · intro h1 h2
    rw [metricEq, hself, Bool.and_true]
    simp [h1, h2]

/-- Witness for C10: two FILE_COUNT metrics with equal before values and
different after values compare equal. -/
theorem claim10_witness :
    metricEq (create_metric .FILE_COUNT 5 (some 1))
      (create_metric .FILE_COUNT 5 (some 2)) = true :=
  (claim10_eq_ignores_after _ _).2 rfl rfl

end IcebergDiag
